import Mathlib

/-!
Verification of the uvagroundv1 ground-station protocol stack.

Shallow embedding of the byte-level codecs and the ARQ controller from
src/ground/packet_functions.py and src/ground.py.  Byte arrays become
List Nat (each element a byte value), Python ints become Int or Nat as
noted at each definition.
-/

/-! KISS framing constants, packet_functions.py lines 40-43. -/

def FEND : Nat := 0xC0

def FESC : Nat := 0xDB

def TFEND : Nat := 0xDC

def TFESC : Nat := 0xDD

/-- Embeds sn_increment, packet_functions.py lines 430-434.
Python ints are modelled as Int. -/
def sn_increment (sequence_number : Int) : Int :=
  let s := sequence_number + 1
  if s > 65535 then 1 else s

/-- Embeds sn_decrement, packet_functions.py lines 437-441. -/
def sn_decrement (sequence_number : Int) : Int :=
  let s := sequence_number - 1
  if s = 0 then 1 else s

/-- Embeds to_bigendian, packet_functions.py lines 460-467.
The source is only ever called with num_bytes equal to 2 or 4. -/
def to_bigendian (input_integer : Nat) (num_bytes : Nat) : List Nat :=
  (if num_bytes = 4 then
    [(input_integer &&& 0xFF000000) >>> 24, (input_integer &&& 0x00FF0000) >>> 16]
  else []) ++ [(input_integer &&& 0xFF00) >>> 8, input_integer &&& 0x00FF]

/-- Embeds from_bigendian, packet_functions.py lines 470-474.
The Python source indexes input_bigendian[i] for i < num_bytes; on the
byte strings the program builds the list always has at least num_bytes
entries, so the out-of-range default 0 is never used there. -/
def from_bigendian (input_bigendian : List Nat) (num_bytes : Nat) : Nat :=
  (List.range num_bytes).foldl
    (fun acc i => acc + (input_bigendian.getD i 0 <<< ((num_bytes - i - 1) * 8))) 0

/-- Embeds the byte-stuffing loop body of kiss_wrap,
packet_functions.py lines 602-610. -/
def kiss_stuff : List Nat → List Nat
  | [] => []
  | p :: rest =>
    if p = FEND then FESC :: TFEND :: kiss_stuff rest
    else if p = FESC then FESC :: TFESC :: kiss_stuff rest
    else p :: kiss_stuff rest

/-- Embeds kiss_wrap, packet_functions.py lines 600-612. -/
def kiss_wrap (ax25_packet : List Nat) : List Nat :=
  FEND :: 0x00 :: (kiss_stuff ax25_packet ++ [FEND])

/-- Embeds the unstuffing loop of kiss_unwrap, packet_functions.py
lines 617-630; the Bool argument is the fesc_found flag.  On a malformed
escape the source prints an error and drops the byte. -/
def kiss_unstuff : Bool → List Nat → List Nat
  | _, [] => []
  | true, b :: rest =>
    if b = TFESC then FESC :: kiss_unstuff false rest
    else if b = TFEND then FEND :: kiss_unstuff false rest
    else kiss_unstuff false rest
  | false, b :: rest =>
    if b = FESC then kiss_unstuff true rest
    else b :: kiss_unstuff false rest

/-- Embeds kiss_unwrap, packet_functions.py lines 615-631: the loop runs
over kiss_packet[2:-1]. -/
def kiss_unwrap (kiss_packet : List Nat) : List Nat :=
  kiss_unstuff false ((kiss_packet.drop 2).dropLast)

/-! GPS time wire codec, packet_functions.py lines 552-568.  Seconds of
week is a Python float; it is modelled as a rational number.  The format
string "{:14.7f}" renders the value rounded to 7 decimal places, then the
text is split at the decimal point; that rounding step is modelled by
Mathlib round on sow * 10^7 (the two agree except on exact half-tick
ties, and both stay within half a tick of the input). -/

/-- The integer number of 10^-7 second ticks produced by formatting
gps_sow with "{:14.7f}", packet_functions.py line 554. -/
def sow_ticks (gps_sow : ℚ) : Nat :=
  (round (gps_sow * 10 ^ 7)).toNat

/-- Embeds spp_time_encode, packet_functions.py lines 552-560: the
visible 10-byte encoding is 2-byte week, 4-byte whole seconds, 4-byte
first seven decimal fraction digits, all big endian. -/
def spp_time_encode (gps_week : Nat) (gps_sow : ℚ) : List Nat :=
  to_bigendian gps_week 2
    ++ to_bigendian (sow_ticks gps_sow / 10 ^ 7) 4
    ++ to_bigendian (sow_ticks gps_sow % 10 ^ 7) 4

/-- Embeds spp_time_decode, packet_functions.py lines 563-568: the whole
part and the 7 fraction digits are recomposed as the decimal value
int . fract, here the rational (int * 10^7 + fract) / 10^7. -/
def spp_time_decode (spp_time_array : List Nat) : Nat × ℚ :=
  let gps_week := from_bigendian (spp_time_array.take 2) 2
  let gps_sow_int := from_bigendian ((spp_time_array.drop 2).take 4) 4
  let gps_sow_fract := from_bigendian ((spp_time_array.drop 6).take 4) 4
  (gps_week, ((gps_sow_int * 10 ^ 7 + gps_sow_fract : Nat) : ℚ) / 10 ^ 7)

/-! Message authentication.  mac_sign (packet_functions.py lines 492-494)
delegates to ground/chaskey.py, which is not among the sources; only a
ctypes binding to a compiled library is present. -/

/-- Modelled from the spec: the Chaskey keyed MAC behind mac_sign
(ground/chaskey.py is missing from the sources; section 4.3 of the spec
specifies a keyed MAC with a 128-bit key and a 16-byte digest).  Any
deterministic keyed digest of 16 bytes serves the claims settled here;
this model mixes a rolling hash of the message with the key bytes. -/
def mac_sign (packet : List Nat) (key : List Nat) : List Nat :=
  let h := packet.foldl (fun a b => (a * 31 + b + 1) % 256) 7
  (List.range 16).map (fun i => (h + 17 * (i + 1) + key.getD (i % 16) 0) % 256)

/-- Embeds the comparison loop of SppPacket.__validate_packet,
packet_functions.py lines 222-225: any byte of mac_digest that differs
from the recomputed digest at the same index sets bit 0 of the mask. -/
def validation_mask_of (mac_digest validation_digest : List Nat) : Nat :=
  (List.range mac_digest.length).foldl
    (fun m idx =>
      if mac_digest.getD idx 0 ≠ validation_digest.getD idx 0 then m ||| 1 else m)
    0

/-- Embeds SppPacket.__spp_wrap, packet_functions.py lines 167-176,
parametrised by the MAC function (macSign) so that the authenticated
scope can be analysed independently of the Chaskey model.  Layout:
byte 0 packet type, bytes 1-2 length, bytes 3-12 timestamp, bytes 13-14
sequence number, payload, then the digest of spp_packet[13:]. -/
def spp_wrap (macSign : List Nat → List Nat → List Nat) (packet_type : Nat)
    (gps_week : Nat) (gps_sow : ℚ) (sequence_number : Nat) (spp_data : List Nat)
    (key : List Nat) : List Nat :=
  let head := packet_type :: (to_bigendian (28 + spp_data.length - 1) 2
    ++ spp_time_encode gps_week gps_sow
    ++ to_bigendian sequence_number 2 ++ spp_data)
  head ++ macSign (head.drop 13) key

/-- Embeds SppPacket.__validate_packet, packet_functions.py lines
219-225, for a packet whose stored digest is its last 16 bytes
(mac_digest_len is 16; __spp_unwrap takes spp_packet[-16:] and
__spp_wrap stores the appended digest).  The recomputed scope is
spp_packet[13:-16]. -/
def validate_packet (macSign : List Nat → List Nat → List Nat)
    (spp_packet : List Nat) (key : List Nat) : Nat :=
  let mac_digest := spp_packet.drop (spp_packet.length - 16)
  let mac_scope := (spp_packet.take (spp_packet.length - 16)).drop 13
  validation_mask_of mac_digest (macSign mac_scope key)

/-- Flips bit j of the byte at index i, the tamper operation of the
verification claim. -/
def flip_bit (p : List Nat) (i j : Nat) : List Nat :=
  p.set i ((p.getD i 0) ^^^ (1 <<< j))

/-! ACK and NAK construction, packet_functions.py lines 497-515.  Only
the spp_data assembled for the packet is modelled; the packet object
then wraps it via spp_wrap.  Packets in packets_to_nak are represented
by their sequence numbers (make_nak reads only p.sequence_number). -/

/-- Embeds the spp_data built by make_ack, packet_functions.py lines
497-501: always the single byte 0x05, whatever packets_to_ack holds. -/
def make_ack_spp_data (packets_to_ack : List Nat) : List Nat :=
  [0x05]

/-- Embeds the spp_data built by make_nak, packet_functions.py lines
504-515, for packet_type TC: 0x06, then a count byte and the 2-byte
big-endian sequence number of every NAKed packet (just 0x00 if none). -/
def make_nak_spp_data (packet_type : String) (packets_to_nak : List Nat) : List Nat :=
  let base := [0x06]
  if packet_type = "TC" then
    if packets_to_nak.length > 0 then
      (base ++ [packets_to_nak.length])
        ++ (packets_to_nak.map (fun p => to_bigendian p 2)).flatten
    else base ++ [0x00]
  else base

/-! AX.25 layer helpers. -/

/-- Embeds ax25_callsign, packet_functions.py lines 542-549: six
characters recovered by unshifting each byte, a dash, the SSID digits,
then all spaces removed. -/
def ax25_callsign (b_callsign : List Nat) : String :=
  let chars := (b_callsign.take 6).map (fun b => Char.ofNat ((b &&& 0b11111110) >>> 1))
  let s := String.mk chars ++ "-" ++ toString ((b_callsign.getD 6 0 &&& 0b00011110) >>> 1)
  String.mk (s.toList.filter (fun c => c ≠ ' '))

/-- Embeds is_oa_command, packet_functions.py lines 228-236: the packet
is long enough and carries the OA key right after the 16-byte header. -/
def is_oa_command (oa_key : List Nat) (ax25_packet : List Nat) : Bool :=
  if ax25_packet.length ≥ 33 then
    (List.range oa_key.length).all
      (fun idx => oa_key.getD idx 0 = ax25_packet.getD (idx + 16) 0)
  else false

/-- Embeds SppPacket.__is_libertas_packet, packet_functions.py lines
206-217, returning the final is_spp_packet flag: an OA match is
discarded unless byte 32 lies in 0x30..0x34, and an SPP packet must be
at least 48 bytes with the control and PID bytes 0x03 0xF0. -/
def is_spp_packet (oa_key : List Nat) (ax25_packet : List Nat) : Bool :=
  let oa := is_oa_command oa_key ax25_packet
    && decide (0x30 ≤ ax25_packet.getD 32 0) && decide (ax25_packet.getD 32 0 ≤ 0x34)
  if oa then false
  else decide (ax25_packet.length ≥ 48)
    && decide (ax25_packet.getD 14 0 = 0x03) && decide (ax25_packet.getD 15 0 = 0xF0)

/-- Embeds init_ax25_badpacket, packet_functions.py lines 533-539: the
synthetic frame used when the receive queue times out.  Its SPP part
declares length 0x1C, a zero timestamp, sequence number 1, the single
data byte 0xFF, and an all-zero 16-byte digest. -/
def init_ax25_badpacket (ax25_header : List Nat) (their_packet_type : Nat) : List Nat :=
  ax25_header ++ ([their_packet_type, 0x00, 0x1C]
    ++ List.replicate 10 0x00 ++ [0x00, 0x01, 0xFF] ++ List.replicate 16 0x00)

/-- Embeds the spp_data slice of SppPacket.__spp_unwrap,
packet_functions.py line 183: spp_packet[15 : 15 + (length + 1) - 12 -
mac_digest_len] with the length field read from spp_packet[1:3]. -/
def spp_data_region (spp_packet : List Nat) : List Nat :=
  let packet_data_length := from_bigendian ((spp_packet.drop 1).take 2) 2
  (spp_packet.drop 15).take ((packet_data_length + 1) - 12 - 16)

/-- The fields of a parsed TM packet consumed by process_received:
validation_mask, command, sequence_number (a Python int), spp_data. -/
structure ParsedTM where
  validation_mask : Nat
  command : Nat
  sequence_number : Int
  spp_data : List Nat
deriving DecidableEq, Repr

/-- Embeds the receive-side parse of a TM frame: the padding to 48 bytes
from process_received (ground.py lines 493-495), SppPacket.__ax25_unwrap
(lines 196-203; the maxsize truncation branch tests packet_type 0x18 and
a parsed TM packet has type 0x08, so it never fires on this path),
SppPacket.__spp_unwrap (lines 178-185) and __validate_packet (lines
219-225).  Valid only on frames for which is_spp_packet holds, as in
parse_ax25 (lines 134-142). -/
def parse_tm (macSign : List Nat → List Nat → List Nat) (key : List Nat)
    (ax25_received : List Nat) : ParsedTM :=
  let ax25_packet := if ax25_received.length < 48 then
    ax25_received ++ List.replicate (48 - ax25_received.length) 0x00
  else ax25_received
  let spp_packet := ax25_packet.drop 16
  let spp_data := spp_data_region spp_packet
  { validation_mask := validate_packet macSign spp_packet key
    command := spp_data.getD 0 0
    sequence_number := (from_bigendian ((spp_packet.drop 13).take 2) 2 : Nat)
    spp_data := spp_data }

/-- A value travelling through the receive queue, ground.py and
packet_functions.py lines 377-387: the Python None sentinel for a closed
socket, the integer sentinel 0xFF, or an AX.25 frame. -/
inductive RxFrame where
  | nullFrame : RxFrame
  | marker : RxFrame
  | frame : List Nat → RxFrame
deriving DecidableEq, Repr

/-- The class-attribute configuration read by queue_receive_packet:
SppPacket.encrypt_uplink, SppPacket.gs_ax25_callsign, SppPacket.oa_key
and SppPacket.gs_cipher.decrypt. -/
structure GsConfig where
  encrypt_uplink : Bool
  gs_ax25_callsign : String
  oa_key : List Nat
  gs_decrypt : List Nat → List Nat

/-- Embeds queue_receive_packet, packet_functions.py lines 377-387,
with the queue as the list of items put so far: None and the 0xFF marker
are forwarded; a frame whose source callsign equals my_ax25_callsign is
dropped; any other frame is put, decrypted first when it is an
encrypted ground-station uplink. -/
def queue_receive_packet (cfg : GsConfig) (item : RxFrame)
    (my_ax25_callsign : String) (q_receive_packet : List RxFrame) : List RxFrame :=
  match item with
  | .nullFrame => q_receive_packet ++ [.nullFrame]
  | .marker => q_receive_packet ++ [.marker]
  | .frame ax25_packet =>
    let ax25_src_callsign := ax25_callsign ((ax25_packet.drop 7).take 7)
    let oa := is_oa_command cfg.oa_key ax25_packet
    if ax25_src_callsign ≠ my_ax25_callsign then
      let ax25' := if cfg.encrypt_uplink ∧ ax25_src_callsign = cfg.gs_ax25_callsign ∧ ¬ oa
        then cfg.gs_decrypt ax25_packet else ax25_packet
      q_receive_packet ++ [.frame ax25']
    else q_receive_packet

/-! Uplink cipher, GsCipher in packet_functions.py lines 239-281.  The
Speck primitive comes from the external speck package (not part of this
repository); the CBC chaining, block slicing, byte conversion, and tail
handling below are from the source. -/

/-- Big-endian integer of a byte slice, int.from_bytes(l, "big"). -/
def bytes_to_int_be (l : List Nat) : Nat :=
  l.foldl (fun a b => a * 256 + b) 0

/-- The low 8 bytes, big endian, of a block value: the source formats
the block as 32 hex characters and keeps characters 16-31,
packet_functions.py lines 264-266 and 278-280. -/
def int_to_bytes_be8 (x : Nat) : List Nat :=
  (List.range 8).map (fun i => (x >>> ((7 - i) * 8)) &&& 0xFF)

/-- Modelled from the spec: the external 64-bit-block Speck encryption
primitive (section 4.4 specifies a lightweight 128-bit-key,
64-bit-block cipher).  Any keyed permutation of 64-bit blocks supports
the round-trip analysis; modelled as addition of the key mod 2^64. -/
def speck_encrypt_block (key x : Nat) : Nat :=
  (x + key) % 2 ^ 64

/-- Modelled from the spec: the inverse Speck primitive. -/
def speck_decrypt_block (key x : Nat) : Nat :=
  (x + (2 ^ 64 - key % 2 ^ 64)) % 2 ^ 64

/-- CBC encryption of a block list: each plaintext block is xored with
the chaining value (initially the IV, re-initialised per frame by
GsCipher.encrypt line 258) before the block cipher; the ciphertext
becomes the next chaining value. -/
def cbc_encrypt (key : Nat) : Nat → List Nat → List Nat
  | _, [] => []
  | chain, p :: rest =>
    let c := speck_encrypt_block key (p ^^^ chain)
    c :: cbc_encrypt key c rest

/-- CBC decryption of a block list, the inverse chaining. -/
def cbc_decrypt (key : Nat) : Nat → List Nat → List Nat
  | _, [] => []
  | chain, c :: rest =>
    ((speck_decrypt_block key c) ^^^ chain) :: cbc_decrypt key c rest

/-- Embeds GsCipher.encrypt, packet_functions.py lines 256-268: the
first 16 bytes pass unchanged; bytes 16..247 are processed as 29
consecutive 8-byte blocks (range(0, 232, 8)); 5 zero bytes are appended
after the encrypted region.  Any input bytes beyond offset 248 are
never read. -/
def gs_encrypt (key iv : Nat) (ax25_packet : List Nat) : List Nat :=
  let body := ax25_packet.drop 16
  let blocks := (List.range 29).map (fun k => bytes_to_int_be ((body.drop (8 * k)).take 8))
  ax25_packet.take 16 ++ ((cbc_encrypt key iv blocks).map int_to_bytes_be8).flatten
    ++ List.replicate 5 0x00

/-- Embeds GsCipher.decrypt, packet_functions.py lines 270-281: the
first 16 bytes pass unchanged and bytes 16..247 are decrypted as 29
blocks; nothing else is produced. -/
def gs_decrypt (key iv : Nat) (ax25_packet_encrypted : List Nat) : List Nat :=
  let body := ax25_packet_encrypted.drop 16
  let blocks := (List.range 29).map (fun k => bytes_to_int_be ((body.drop (8 * k)).take 8))
  ax25_packet_encrypted.take 16 ++ ((cbc_decrypt key iv blocks).map int_to_bytes_be8).flatten

/-! The ARQ controller, process_received in ground.py lines 458-597.
The loop body is embedded as a step function on the mutable state it
owns; packets already parsed by SppPacket.parse_ax25 enter as ParsedTM
values.  Transmissions are recorded as Emit values. -/

/-- Command codes from ground/constant.py used by process_received. -/
def CMD_XMIT_COUNT : Nat := 0x01

def CMD_XMIT_HEALTH : Nat := 0x02

def CMD_XMIT_SCIENCE : Nat := 0x03

def CMD_ACK : Nat := 0x05

def CMD_NAK : Nat := 0x06

def CMD_READ_MEM : Nat := 0x08

def CMD_GET_COMMS : Nat := 0x0C

def CMD_MAC_TEST : Nat := 0x0E

/-- A packet transmitted by process_received: the cumulative ACK, a NAK
listing the recorded sequence numbers, the CEASE_XMIT command (spp_data
0x7F, ground.py lines 578-582), or the retransmission of a waiting TC
packet in response to an inbound NAK. -/
inductive Emit where
  | ack : Emit
  | nak : List Int → Emit
  | ceaseXmit : Emit
  | retransmit : Int → Emit
deriving DecidableEq, Repr

/-- Kind tag of an emitted packet: 0 ACK, 1 NAK, 2 CEASE_XMIT,
3 retransmission. -/
def emitKind : Emit → Nat
  | .ack => 0
  | .nak _ => 1
  | .ceaseXmit => 2
  | .retransmit _ => 3

/-- Configuration globals read by process_received. -/
structure ArqConfig where
  max_retries : Int
  tm_packet_window : Nat
  health_payloads_per_packet : Int
  science_payloads_per_packet : Int
deriving DecidableEq, Repr

/-- The mutable state owned by process_received.  tc_waiting holds the
sequence numbers of tc_packets_waiting_for_ack; to_ack and to_nak hold
the sequence numbers of the accumulated TM packets (a NAKed packet is
restamped with the expected sequence number, ground.py line 503). -/
structure ArqState where
  expected_sc_seq : Int
  ground_seq : Int
  tc_waiting : List Int
  to_ack : List Int
  to_nak : List Int
  retry_count : Int
  health_avail : Int
  science_avail : Int
  payloads_pending : Int
  dump_mode : Bool
deriving DecidableEq, Repr

/-- Embeds the window-flush block, ground.py lines 572-597.  It runs
only when the dispatched command set do_transmit_packet, with dump mode
off.  When the window fills or the downlink is complete: with pending
NAKs the retry counter is decremented and either CEASE_XMIT goes out
(counter reached 0; retry_count becomes -1 and the continue statement
skips the list clearing) or a NAK listing the recorded sequence numbers
goes out; with no pending NAKs retry_count resets to -1 and a cumulative
ACK goes out.  Each transmission advances ground_seq. -/
def window_flush (cfg : ArqConfig) (st : ArqState) (downlink_complete : Bool) :
    ArqState × List Emit :=
  if ¬ st.dump_mode then
    if st.to_ack.length + st.to_nak.length ≥ cfg.tm_packet_window ∨ downlink_complete then
      if st.to_nak.length > 0 then
        let rc := st.retry_count - 1
        if rc = 0 then
          ({ st with
              retry_count := -1,
              ground_seq := sn_increment st.ground_seq },
            [Emit.ceaseXmit])
        else
          ({ st with
              retry_count := rc,
              ground_seq := sn_increment st.ground_seq,
              to_ack := [], to_nak := [] },
            [Emit.nak st.to_nak])
      else
        ({ st with
            retry_count := -1,
            ground_seq := sn_increment st.ground_seq,
            to_ack := [], to_nak := [] },
          [Emit.ack])
    else (st, [])
  else (st, [])

/-- Embeds one iteration of the process_received loop body after the
frame has been parsed, ground.py lines 498-597.  A packet that fails
MAC verification and is not the 0xFF sentinel updates the retry
bookkeeping and, outside dump mode, is recorded for NAK; otherwise the
command is dispatched, and only the commands that set
do_transmit_packet reach the window flush. -/
def arq_step (cfg : ArqConfig) (st : ArqState) (p : ParsedTM) : ArqState × List Emit :=
  if p.validation_mask ≠ 0 ∧ p.command ≠ 0xFF then
    let rc := if st.retry_count < 0 then cfg.max_retries + 1 else st.retry_count
    ({ st with
        retry_count := rc,
        expected_sc_seq := sn_increment st.expected_sc_seq,
        to_nak := if ¬ st.dump_mode then st.to_nak ++ [st.expected_sc_seq] else st.to_nak },
      [])
  else
    let c := p.command
    if c = 0xFF then (st, [])
    else if c = CMD_ACK then
      ({ st with
          tc_waiting := [],
          expected_sc_seq := sn_increment p.sequence_number }, [])
    else if c = CMD_NAK then
      (st, st.tc_waiting.map Emit.retransmit)
    else if c = CMD_XMIT_COUNT then
      window_flush cfg
        { st with
            tc_waiting := [],
            expected_sc_seq := sn_increment p.sequence_number,
            health_avail := (from_bigendian ((p.spp_data.drop 1).take 2) 2 : Nat),
            science_avail := (from_bigendian ((p.spp_data.drop 3).take 2) 2 : Nat),
            to_ack := st.to_ack ++ [p.sequence_number] }
        true
    else if c = CMD_XMIT_HEALTH then
      let pending := st.payloads_pending - cfg.health_payloads_per_packet
      window_flush cfg
        { st with
            tc_waiting := [],
            expected_sc_seq := sn_increment p.sequence_number,
            payloads_pending := if pending ≤ 0 then 0 else pending,
            health_avail := st.health_avail - cfg.health_payloads_per_packet,
            to_ack := if ¬ st.dump_mode then st.to_ack ++ [p.sequence_number] else st.to_ack }
        (pending ≤ 0)
    else if c = CMD_XMIT_SCIENCE then
      let pending := st.payloads_pending - cfg.science_payloads_per_packet
      window_flush cfg
        { st with
            tc_waiting := [],
            expected_sc_seq := sn_increment p.sequence_number,
            payloads_pending := if pending ≤ 0 then 0 else pending,
            science_avail := st.science_avail - cfg.science_payloads_per_packet,
            to_ack := if ¬ st.dump_mode then st.to_ack ++ [p.sequence_number] else st.to_ack }
        (pending ≤ 0)
    else if c = CMD_READ_MEM then
      window_flush cfg
        { st with
            tc_waiting := [],
            expected_sc_seq := sn_increment p.sequence_number,
            to_ack := st.to_ack ++ [p.sequence_number] }
        true
    else if c = CMD_GET_COMMS then
      window_flush cfg
        { st with
            tc_waiting := [],
            expected_sc_seq := sn_increment p.sequence_number,
            to_ack := st.to_ack ++ [p.sequence_number] }
        true
    else if c = CMD_MAC_TEST then
      ({ st with
          tc_waiting := [],
          expected_sc_seq := sn_increment p.sequence_number }, [])
    else (st, [])

/-- Runs the process_received loop body over a list of parsed inbound
packets, concatenating the transmissions. -/
def arq_run (cfg : ArqConfig) : ArqState → List ParsedTM → ArqState × List Emit
  | st, [] => (st, [])
  | st, p :: rest =>
    ((arq_run cfg (arq_step cfg st p).1 rest).1,
      (arq_step cfg st p).2 ++ (arq_run cfg (arq_step cfg st p).1 rest).2)

/-- The initial to_ack, to_nak and retry_count of process_received,
ground.py lines 479-481, around a session snapshot of the other
globals. -/
def arq_init (expected ground : Int) (waiting : List Int)
    (health science pending : Int) (dump : Bool) : ArqState :=
  { expected_sc_seq := expected, ground_seq := ground, tc_waiting := waiting
    to_ack := [], to_nak := [], retry_count := -1
    health_avail := health, science_avail := science
    payloads_pending := pending, dump_mode := dump }

/-- The byte pattern 0, 1, ..., 252: a concrete frame of the fixed
uplink size. -/
def frame253 : List Nat := (List.range 253).map (fun i => i % 256)

/-- A concrete inbound TM packet failing MAC verification: non-zero
validation mask and a command byte other than the 0xFF sentinel. -/
def tm_mac_fail : ParsedTM :=
  { validation_mask := 1, command := 0x20, sequence_number := 0, spp_data := [] }

/-- A concrete valid XMIT_COUNT reply: mask 0, command 0x01, sequence
number 9, payloads reporting 4 health and 2 science payloads. -/
def tm_xmit_count : ParsedTM :=
  { validation_mask := 0, command := 0x01, sequence_number := 9,
    spp_data := [0x01, 0x00, 0x04, 0x00, 0x02] }

/-- k repetitions of a MAC-failing reply followed by a valid
XMIT_COUNT reply. -/
def arq_fail_count_pattern (k : Nat) : List ParsedTM :=
  (List.replicate k [tm_mac_fail, tm_xmit_count]).flatten

/-- A concrete controller configuration: max_retries 2, window 1, the
default 4 health and 2 science payloads per packet (ground.py lines
1074-1085). -/
def cfg_demo : ArqConfig :=
  { max_retries := 2, tm_packet_window := 1,
    health_payloads_per_packet := 4, science_payloads_per_packet := 2 }

/-- A concrete session state with a pending downlink and dump mode
off. -/
def st_demo : ArqState := arq_init 1 1 [7] 10 10 8 false

/-- The same concrete state with dump mode on. -/
def st_demo_dump : ArqState := arq_init 1 1 [7] 10 10 8 true

/-- A concrete 16-byte AX.25 header: destination ABC-0, source BCD-1,
control 0x03, PID 0xF0. -/
def hdr_demo : List Nat :=
  [130, 132, 134, 64, 64, 64, 96, 132, 134, 136, 64, 64, 64, 99, 0x03, 0xF0]

/-!
Helper lemmas shared by the claim theorems.
-/

theorem mac_sign_length (packet key : List Nat) : (mac_sign packet key).length = 16 := by
  simp [mac_sign]

theorem foldl_id {α : Type} (l : List α) (m : Nat) :
    l.foldl (fun acc _ => acc) m = m := by
  induction l generalizing m with
  | nil => rfl
  | cons a t ih => simpa [List.foldl] using ih m

theorem validation_mask_of_self (d : List Nat) : validation_mask_of d d = 0 := by
  unfold validation_mask_of
  have h : (fun (m : Nat) (idx : Nat) =>
      if d.getD idx 0 ≠ d.getD idx 0 then m ||| 1 else m) = fun m _ => m := by
    funext m idx
    simp
  rw [h, foldl_id]

theorem byte_extract (x k : Nat) : (x &&& (255 <<< k)) >>> k = (x / 2 ^ k) % 256 := by
  have h : (x / 2 ^ k) % 256 = (x >>> k) % 2 ^ 8 := by
    rw [Nat.shiftRight_eq_div_pow]
    norm_num
  rw [h]
  apply Nat.eq_of_testBit_eq
  intro i
  have h255 : ∀ j : Nat, Nat.testBit 255 j = decide (j < 8) := by
    intro j
    have h2 : (255 : Nat) = 2 ^ 8 - 1 := by norm_num
    rw [h2, Nat.testBit_two_pow_sub_one]
  simp only [Nat.testBit_shiftRight, Nat.testBit_and, Nat.testBit_shiftLeft,
    Nat.testBit_mod_two_pow, h255]
  by_cases hk : k ≤ k + i
  · by_cases h8 : i < 8 <;> simp [hk, h8] <;> omega
  · omega

theorem to_bigendian_two (x : Nat) :
    to_bigendian x 2 = [(x / 2 ^ 8) % 256, x % 256] := by
  have h8 : (x &&& 0xFF00) >>> 8 = (x / 2 ^ 8) % 256 := by
    have : (0xFF00 : Nat) = 255 <<< 8 := by decide
    rw [this, byte_extract]
  have h0 : x &&& 0x00FF = x % 256 := by
    have h := byte_extract x 0
    simpa using h
  simp [to_bigendian, h8, h0]

theorem to_bigendian_four (x : Nat) :
    to_bigendian x 4 = [(x / 2 ^ 24) % 256, (x / 2 ^ 16) % 256, (x / 2 ^ 8) % 256, x % 256] := by
  have h24 : (x &&& 0xFF000000) >>> 24 = (x / 2 ^ 24) % 256 := by
    have : (0xFF000000 : Nat) = 255 <<< 24 := by decide
    rw [this, byte_extract]
  have h16 : (x &&& 0x00FF0000) >>> 16 = (x / 2 ^ 16) % 256 := by
    have : (0x00FF0000 : Nat) = 255 <<< 16 := by decide
    rw [this, byte_extract]
  have h8 : (x &&& 0xFF00) >>> 8 = (x / 2 ^ 8) % 256 := by
    have : (0xFF00 : Nat) = 255 <<< 8 := by decide
    rw [this, byte_extract]
  have h0 : x &&& 0x00FF = x % 256 := by
    have h := byte_extract x 0
    simpa using h
  simp [to_bigendian, h24, h16, h8, h0]

theorem from_bigendian_two (a b : Nat) : from_bigendian [a, b] 2 = a * 256 + b := by
  simp [from_bigendian, List.range_succ, Nat.shiftLeft_eq]

theorem from_bigendian_four (a b c d : Nat) :
    from_bigendian [a, b, c, d] 4 = ((a * 256 + b) * 256 + c) * 256 + d := by
  simp [from_bigendian, List.range_succ, Nat.shiftLeft_eq]
  ring

theorem from_to_bigendian_two (x : Nat) (h : x < 2 ^ 16) :
    from_bigendian (to_bigendian x 2) 2 = x := by
  rw [to_bigendian_two, from_bigendian_two]
  omega

theorem from_to_bigendian_four (x : Nat) (h : x < 2 ^ 32) :
    from_bigendian (to_bigendian x 4) 4 = x := by
  rw [to_bigendian_four, from_bigendian_four]
  omega

/-!
Claim C4.
-/

/-- Claim C4, counterexample: the claim asserts
increment(decrement(n)) = n for every n in [1, 65535], but at n = 1 the
source gives decrement(1) = 1 and hence increment(decrement(1)) = 2. -/
theorem c4_counterexample : sn_increment (sn_decrement 1) ≠ 1 ∧ sn_increment (sn_decrement 1) = 2 := by
  constructor <;> decide

/-- Claim C4 as amended: for every sequence number n in [2, 65535],
increment(decrement(n)) = n; increment(65535) = 1 and decrement(1) = 1
(so at n = 1 the composite yields 2, not 1); and on [1, 65535] neither
operation ever yields 0. -/
theorem c4_sequence_number_arithmetic :
    (∀ n : Int, 2 ≤ n → n ≤ 65535 → sn_increment (sn_decrement n) = n)
    ∧ sn_increment 65535 = 1 ∧ sn_decrement 1 = 1
    ∧ (∀ n : Int, 1 ≤ n → n ≤ 65535 → sn_increment n ≠ 0 ∧ sn_decrement n ≠ 0) := by
  refine ⟨?_, by decide, by decide, ?_⟩ <;>
    intro n h1 h2 <;>
    simp only [sn_increment, sn_decrement] <;>
    split_ifs <;>
    omega

/-- Claim C4, witness for the amended theorem at n = 500 and n = 1. -/
theorem c4_witness : sn_increment (sn_decrement 500) = 500 ∧ sn_increment 1 ≠ 0 := by
  exact ⟨c4_sequence_number_arithmetic.1 500 (by norm_num) (by norm_num),
    (c4_sequence_number_arithmetic.2.2.2 1 (by norm_num) (by norm_num)).1⟩

/-!
Claim C8.
-/

theorem kiss_unstuff_stuff (p : List Nat) : kiss_unstuff false (kiss_stuff p) = p := by
  induction p with
  | nil => rfl
  | cons b rest ih =>
    by_cases h1 : b = FEND
    · subst h1
      simp [kiss_stuff, kiss_unstuff, FEND, FESC, TFEND, TFESC, ih]
    · by_cases h2 : b = FESC
      · subst h2
        simp [kiss_stuff, kiss_unstuff, FESC, TFEND, TFESC, ih]
      · simp [kiss_stuff, kiss_unstuff, h1, h2, ih]

/-- Claim C8: for every byte sequence p, including ones containing 0xC0
and 0xDB, kiss_unwrap (kiss_wrap p) = p: wrapping stuffs 0xC0 as
0xDB 0xDC and 0xDB as 0xDB 0xDD between the 0xC0 0x00 prefix and the
trailing 0xC0, and unwrapping reverses the stuffing exactly. -/
theorem c8_kiss_roundtrip : ∀ p : List Nat, kiss_unwrap (kiss_wrap p) = p := by
  intro p
  unfold kiss_wrap kiss_unwrap
  simp only [List.drop_succ_cons, List.drop_zero]
  rw [List.dropLast_concat]
  exact kiss_unstuff_stuff p

/-!
Claim C7.
-/

theorem sow_ticks_cast (gps_sow : ℚ) (h0 : 0 ≤ gps_sow) :
    ((sow_ticks gps_sow : Nat) : ℚ) = ((round (gps_sow * 10 ^ 7) : ℤ) : ℚ) := by
  have hr0 : 0 ≤ round (gps_sow * 10 ^ 7) := by
    rw [round_eq]
    exact Int.floor_nonneg.mpr (by positivity)
  rw [sow_ticks]
  exact_mod_cast congrArg (fun z : Int => (z : ℚ)) (Int.toNat_of_nonneg hr0)

/-- Claim C7: for every GPS week in [0, 65535] and seconds-of-week in
[0, 604800), decoding the 10-byte wire encoding produced from
(week, sow) — 2-byte week, 4-byte whole-seconds, 4-byte first seven
fraction digits — returns the same week and a seconds-of-week within
1e-7 of the input. -/
theorem c7_spp_time_roundtrip (gps_week : Nat) (gps_sow : ℚ)
    (hw : gps_week ≤ 65535) (h0 : 0 ≤ gps_sow) (h1 : gps_sow < 604800) :
    (spp_time_decode (spp_time_encode gps_week gps_sow)).1 = gps_week
    ∧ |(spp_time_decode (spp_time_encode gps_week gps_sow)).2 - gps_sow| ≤ 1 / 10 ^ 7 := by
  have hcast := sow_ticks_cast gps_sow h0
  have habs : |((sow_ticks gps_sow : Nat) : ℚ) - gps_sow * 10 ^ 7| ≤ 1 / 2 := by
    rw [hcast]
    have h := abs_sub_round (gps_sow * 10 ^ 7)
    rw [abs_sub_comm] at h
    exact h
  set n : Nat := sow_ticks gps_sow with hn
  have hnq : (n : ℚ) < 6048000000001 := by
    have h2 : (n : ℚ) ≤ gps_sow * 10 ^ 7 + 1 / 2 := by
      have := abs_le.mp habs
      linarith [this.2]
    have h3 : gps_sow * 10 ^ 7 < 6048000000000 := by nlinarith
    linarith
  have hnN : n ≤ 6048000000000 := by
    have h4 : n < 6048000000001 := by exact_mod_cast hnq
    omega
  have hq : n / 10 ^ 7 ≤ 604800 := by omega
  have hr : n % 10 ^ 7 < 10 ^ 7 := Nat.mod_lt _ (by norm_num)
  have hweek : from_bigendian (to_bigendian gps_week 2) 2 = gps_week :=
    from_to_bigendian_two gps_week (by omega)
  have hint : from_bigendian (to_bigendian (n / 10 ^ 7) 4) 4 = n / 10 ^ 7 :=
    from_to_bigendian_four _ (by omega)
  have hfract : from_bigendian (to_bigendian (n % 10 ^ 7) 4) 4 = n % 10 ^ 7 :=
    from_to_bigendian_four _ (by omega)
  have len2 : (to_bigendian gps_week 2).length = 2 := by simp [to_bigendian]
  have len4a : (to_bigendian (n / 10 ^ 7) 4).length = 4 := by simp [to_bigendian]
  have len4b : (to_bigendian (n % 10 ^ 7) 4).length = 4 := by simp [to_bigendian]
  have hdec : spp_time_decode (spp_time_encode gps_week gps_sow)
      = (gps_week, (((n / 10 ^ 7) * 10 ^ 7 + n % 10 ^ 7 : Nat) : ℚ) / 10 ^ 7) := by
    have hA : spp_time_encode gps_week gps_sow
        = to_bigendian gps_week 2
          ++ (to_bigendian (n / 10 ^ 7) 4 ++ to_bigendian (n % 10 ^ 7) 4) := by
      unfold spp_time_encode
      rw [← hn, List.append_assoc]
    have htake2 : (spp_time_encode gps_week gps_sow).take 2 = to_bigendian gps_week 2 := by
      rw [hA, List.take_left' len2]
    have hdrop2 : (spp_time_encode gps_week gps_sow).drop 2
        = to_bigendian (n / 10 ^ 7) 4 ++ to_bigendian (n % 10 ^ 7) 4 := by
      rw [hA, List.drop_left' len2]
    have htake4 : ((spp_time_encode gps_week gps_sow).drop 2).take 4
        = to_bigendian (n / 10 ^ 7) 4 := by
      rw [hdrop2, List.take_left' len4a]
    have hdrop6 : (spp_time_encode gps_week gps_sow).drop 6
        = to_bigendian (n % 10 ^ 7) 4 := by
      have h6 : (6 : Nat) = 2 + 4 := by norm_num
      rw [h6, ← List.drop_drop, hdrop2, List.drop_left' len4a]
    have htake4b : ((spp_time_encode gps_week gps_sow).drop 6).take 4
        = to_bigendian (n % 10 ^ 7) 4 := by
      rw [hdrop6]
      exact List.take_of_length_le (le_of_eq len4b)
    unfold spp_time_decode
    rw [htake2, htake4, htake4b, hweek, hint, hfract]
  rw [hdec]
  refine ⟨rfl, ?_⟩
  have hrecomp : (((n / 10 ^ 7) * 10 ^ 7 + n % 10 ^ 7 : Nat) : ℚ) = (n : ℚ) := by
    have h5 : (n / 10 ^ 7) * 10 ^ 7 + n % 10 ^ 7 = n := by omega
    exact_mod_cast congrArg (fun m : Nat => (m : ℚ)) h5
  simp only [hrecomp]
  have hrw : (n : ℚ) / 10 ^ 7 - gps_sow = ((n : ℚ) - gps_sow * 10 ^ 7) / 10 ^ 7 := by
    field_simp
    ring
  rw [hrw, abs_div]
  have h7 : |(10 ^ 7 : ℚ)| = 10 ^ 7 := by norm_num
  rw [h7]
  have hx : |(n : ℚ) - gps_sow * 10 ^ 7| ≤ 1 := le_trans habs (by norm_num)
  exact (div_le_div_right (by norm_num)).mpr hx

/-- Claim C7, witness at week 1000 and sow 604799.5. -/
theorem c7_witness :
    (spp_time_decode (spp_time_encode 1000 (604799 + 1 / 2))).1 = 1000
    ∧ |(spp_time_decode (spp_time_encode 1000 (604799 + 1 / 2))).2 - (604799 + 1 / 2)| ≤ 1 / 10 ^ 7 :=
  c7_spp_time_roundtrip 1000 (604799 + 1 / 2) (by norm_num) (by norm_num) (by norm_num)

/-!
Claim C9.
-/

/-- Claim C9: for every value of the packets_to_ack argument, make_ack
builds an SPP payload of exactly the single byte 0x05 — the wrapped ACK
packet carries exactly that one payload byte — and the cumulative ACK
never lists the acknowledged sequence numbers, unlike make_nak, which
appends a count byte and each NAKed 2-byte sequence number. -/
theorem c9_ack_payload_single_byte :
    (∀ packets_to_ack : List Nat, make_ack_spp_data packets_to_ack = [0x05])
    ∧ (∀ (gps_week : Nat) (gps_sow : ℚ) (sequence_number : Nat)
        (key packets_to_ack : List Nat),
        spp_data_region (spp_wrap mac_sign 0x18 gps_week gps_sow sequence_number
          (make_ack_spp_data packets_to_ack) key) = [0x05])
    ∧ (∀ packets_to_nak : List Nat, packets_to_nak ≠ [] →
        make_nak_spp_data "TC" packets_to_nak
          = 0x06 :: packets_to_nak.length
            :: (packets_to_nak.map (fun p => to_bigendian p 2)).flatten)
    ∧ make_nak_spp_data "TC" [] = [0x06, 0x00] := by
  refine ⟨fun _ => rfl, ?_, ?_, by decide⟩
  · intro gps_week gps_sow sequence_number key packets_to_ack
    have h28 : to_bigendian 28 2 = [0, 28] := by decide
    simp only [spp_data_region, spp_wrap, make_ack_spp_data, spp_time_encode,
      to_bigendian_two, to_bigendian_four, h28]
    simp [from_bigendian_two]
  · intro packets_to_nak hne
    have hlen : packets_to_nak.length > 0 := List.length_pos.mpr hne
    simp [make_nak_spp_data, hlen]

/-- Claim C9, witness for the NAK branch at the two sequence numbers
258 and 3. -/
theorem c9_witness :
    make_nak_spp_data "TC" [258, 3]
      = 0x06 :: ([258, 3] : List Nat).length
        :: (([258, 3] : List Nat).map (fun p => to_bigendian p 2)).flatten :=
  c9_ack_payload_single_byte.2.2.1 [258, 3] (by decide)

/-!
Claim C10.
-/

/-- Claim C10: a received non-sentinel AX.25 frame whose source
callsign field (bytes 7..13) decodes to the own callsign of the
receiving station is discarded by queue_receive_packet, leaving the inbound
queue unchanged; a frame from any other source callsign is enqueued. -/
theorem c10_own_callsign_dropped (cfg : GsConfig) (my_ax25_callsign : String)
    (q : List RxFrame) (ax25_packet : List Nat) :
    (ax25_callsign ((ax25_packet.drop 7).take 7) = my_ax25_callsign →
      queue_receive_packet cfg (.frame ax25_packet) my_ax25_callsign q = q)
    ∧ (ax25_callsign ((ax25_packet.drop 7).take 7) ≠ my_ax25_callsign →
      ∃ delivered, queue_receive_packet cfg (.frame ax25_packet) my_ax25_callsign q
        = q ++ [.frame delivered]) := by
  constructor
  · intro hsame
    simp [queue_receive_packet, hsame]
  · intro hdiff
    refine ⟨if cfg.encrypt_uplink
        ∧ ax25_callsign ((ax25_packet.drop 7).take 7) = cfg.gs_ax25_callsign
        ∧ ¬ is_oa_command cfg.oa_key ax25_packet
      then cfg.gs_decrypt ax25_packet else ax25_packet, ?_⟩
    simp [queue_receive_packet, hdiff]

/-- Claim C10, witness: a frame whose source field spells the receiving
callsign BCD-1 leaves the queue unchanged, and the same frame offered
to a station with callsign XYZ-9 is enqueued. -/
theorem c10_witness :
    queue_receive_packet
      ⟨false, "GS-0", [9, 9, 9], id⟩
      (.frame [130, 132, 134, 64, 64, 64, 96, 132, 134, 136, 64, 64, 64, 99, 0x03, 0xF0])
      "BCD-1" [] = []
    ∧ ∃ delivered, queue_receive_packet
      ⟨false, "GS-0", [9, 9, 9], id⟩
      (.frame [130, 132, 134, 64, 64, 64, 96, 132, 134, 136, 64, 64, 64, 99, 0x03, 0xF0])
      "XYZ-9" [] = [] ++ [.frame delivered] :=
  ⟨(c10_own_callsign_dropped ⟨false, "GS-0", [9, 9, 9], id⟩ "BCD-1" []
      [130, 132, 134, 64, 64, 64, 96, 132, 134, 136, 64, 64, 64, 99, 0x03, 0xF0]).1
    (by decide),
   (c10_own_callsign_dropped ⟨false, "GS-0", [9, 9, 9], id⟩ "XYZ-9" []
      [130, 132, 134, 64, 64, 64, 96, 132, 134, 136, 64, 64, 64, 99, 0x03, 0xF0]).2
    (by decide)⟩

/-!
Claim C1.
-/

theorem to_bigendian_length_two (x : Nat) : (to_bigendian x 2).length = 2 := by
  simp [to_bigendian]

theorem to_bigendian_length_four (x : Nat) : (to_bigendian x 4).length = 4 := by
  simp [to_bigendian]

theorem spp_time_encode_length (gps_week : Nat) (gps_sow : ℚ) :
    (spp_time_encode gps_week gps_sow).length = 10 := by
  simp [spp_time_encode, to_bigendian]

theorem validate_head_digest (macSign : List Nat → List Nat → List Nat)
    (hlen : ∀ m k, (macSign m k).length = 16)
    (head head' key : List Nat) (hl : head'.length = head.length)
    (hdrop : head'.drop 13 = head.drop 13) :
    validate_packet macSign (head' ++ macSign (head.drop 13) key) key = 0 := by
  unfold validate_packet
  have hd16 : (macSign (head.drop 13) key).length = 16 := hlen _ _
  have hlen' : (head' ++ macSign (head.drop 13) key).length = head'.length + 16 := by
    simp [hd16]
  rw [hlen']
  have h1 : head'.length + 16 - 16 = head'.length := by omega
  rw [h1, List.drop_left, List.take_left, hdrop]
  exact validation_mask_of_self _

/-- Claim C1 as amended: the digest appended by the wrap step is
computed over spp_packet[13:] — the sequence number and payload only,
not the timestamp — and verification recomputes it over
spp_packet[13:-16]; consequently flipping any bit of the timestamp
bytes (offsets 3..12) of a wrapped packet leaves the validity mask 0,
for every MAC function with 16-byte digests.  (An untampered wrapped
packet also verifies with mask 0.) -/
theorem c1_mac_scope_excludes_timestamp
    (macSign : List Nat → List Nat → List Nat)
    (hlen : ∀ m k, (macSign m k).length = 16)
    (packet_type gps_week : Nat) (gps_sow : ℚ) (sequence_number : Nat)
    (spp_data key : List Nat) (i j : Nat) (h3 : 3 ≤ i) (h13 : i < 13) :
    validate_packet macSign
      (spp_wrap macSign packet_type gps_week gps_sow sequence_number spp_data key) key = 0
    ∧ validate_packet macSign
      (flip_bit (spp_wrap macSign packet_type gps_week gps_sow sequence_number spp_data key) i j)
      key = 0 := by
  unfold spp_wrap flip_bit
  set head := packet_type :: (to_bigendian (28 + spp_data.length - 1) 2
    ++ spp_time_encode gps_week gps_sow
    ++ to_bigendian sequence_number 2 ++ spp_data) with hhead
  have hheadlen : head.length = 15 + spp_data.length := by
    rw [hhead]
    simp [to_bigendian_length_two, spp_time_encode_length]
    omega
  have hi_head : i < head.length := by omega
  constructor
  · exact validate_head_digest macSign hlen head head key rfl rfl
  · rw [List.set_append_left _ _ hi_head]
    exact validate_head_digest macSign hlen head (head.set i _) key
      (by simp) (List.drop_set_of_lt _ _ h13)

/-- Claim C1, counterexample: flipping bit 0 of timestamp byte 3 in a
concrete wrapped packet changes the packet, yet verification still
returns validity mask 0, where the claim demands a non-zero mask. -/
theorem c1_counterexample :
    flip_bit (spp_wrap mac_sign 0x08 2000 100 5 [0x02, 1, 2, 3] (List.range 16)) 3 0
        ≠ spp_wrap mac_sign 0x08 2000 100 5 [0x02, 1, 2, 3] (List.range 16)
    ∧ validate_packet mac_sign
        (flip_bit (spp_wrap mac_sign 0x08 2000 100 5 [0x02, 1, 2, 3] (List.range 16)) 3 0)
        (List.range 16) = 0 := by
  constructor <;> decide

/-- Claim C1, witness for the amended theorem: a concrete wrapped
packet verifies with mask 0, and still does after bit 1 of timestamp
byte 4 is flipped. -/
theorem c1_witness :
    validate_packet mac_sign
      (spp_wrap mac_sign 0x08 2000 100 5 [0x02, 1, 2, 3] (List.range 16)) (List.range 16) = 0
    ∧ validate_packet mac_sign
      (flip_bit (spp_wrap mac_sign 0x08 2000 100 5 [0x02, 1, 2, 3] (List.range 16)) 4 1)
      (List.range 16) = 0 :=
  c1_mac_scope_excludes_timestamp mac_sign (fun m k => mac_sign_length m k)
    0x08 2000 100 5 [0x02, 1, 2, 3] (List.range 16) 4 1 (by decide) (by decide)

/-!
Claim C5.
-/

theorem foldl_bytes_lt (l : List Nat) : ∀ a : Nat, (∀ b ∈ l, b < 256) →
    l.foldl (fun a b => a * 256 + b) a < (a + 1) * 256 ^ l.length := by
  induction l with
  | nil => intro a _; simpa using Nat.lt_succ_self a
  | cons b t ih =>
    intro a hb
    have hb0 : b < 256 := hb b (by simp)
    have ht : ∀ x ∈ t, x < 256 := fun x hx => hb x (by simp [hx])
    have h1 := ih (a * 256 + b) ht
    have h2 : (a * 256 + b + 1) * 256 ^ t.length ≤ (a + 1) * 256 ^ (t.length + 1) := by
      have h3 : a * 256 + b + 1 ≤ (a + 1) * 256 := by omega
      calc (a * 256 + b + 1) * 256 ^ t.length
        ≤ ((a + 1) * 256) * 256 ^ t.length := Nat.mul_le_mul_right _ h3
        _ = (a + 1) * 256 ^ (t.length + 1) := by ring
    simp only [List.foldl_cons, List.length_cons]
    exact lt_of_lt_of_le h1 h2

theorem bytes_to_int_be_lt (l : List Nat) (hb : ∀ b ∈ l, b < 256) (h8 : l.length ≤ 8) :
    bytes_to_int_be l < 2 ^ 64 := by
  have h1 := foldl_bytes_lt l 0 hb
  have h2 : (0 + 1) * 256 ^ l.length ≤ 2 ^ 64 := by
    have h3 : (256 : Nat) ^ l.length ≤ 256 ^ 8 := Nat.pow_le_pow_right (by norm_num) h8
    simpa using le_trans h3 (by norm_num)
  exact lt_of_lt_of_le h1 h2

theorem speck_encrypt_block_lt (key x : Nat) : speck_encrypt_block key x < 2 ^ 64 :=
  Nat.mod_lt _ (by norm_num)

theorem speck_block_roundtrip (key x : Nat) (hx : x < 2 ^ 64) :
    speck_decrypt_block key (speck_encrypt_block key x) = x := by
  unfold speck_encrypt_block speck_decrypt_block
  omega

theorem cbc_roundtrip (key : Nat) : ∀ (blocks : List Nat) (chain : Nat), chain < 2 ^ 64 →
    (∀ b ∈ blocks, b < 2 ^ 64) →
    cbc_decrypt key chain (cbc_encrypt key chain blocks) = blocks := by
  intro blocks
  induction blocks with
  | nil => intro chain _ _; rfl
  | cons p rest ih =>
    intro chain hc hb
    have hp : p < 2 ^ 64 := hb p (by simp)
    have hrest : ∀ b ∈ rest, b < 2 ^ 64 := fun b h => hb b (by simp [h])
    have hxor : p ^^^ chain < 2 ^ 64 := Nat.xor_lt_two_pow hp hc
    simp only [cbc_encrypt, cbc_decrypt]
    rw [speck_block_roundtrip key (p ^^^ chain) hxor, Nat.xor_cancel_right]
    rw [ih (speck_encrypt_block key (p ^^^ chain)) (speck_encrypt_block_lt key _) hrest]

theorem cbc_encrypt_length (key : Nat) : ∀ (blocks : List Nat) (chain : Nat),
    (cbc_encrypt key chain blocks).length = blocks.length := by
  intro blocks
  induction blocks with
  | nil => intro chain; rfl
  | cons p rest ih => intro chain; simp [cbc_encrypt, ih]

theorem int_to_bytes_be8_length (x : Nat) : (int_to_bytes_be8 x).length = 8 := by
  simp [int_to_bytes_be8]

theorem and_255_eq_mod (y : Nat) : y &&& 255 = y % 256 := by
  have h := byte_extract y 0
  simpa using h

theorem bytes_of_int_to_bytes (x : Nat) (hx : x < 2 ^ 64) :
    bytes_to_int_be (int_to_bytes_be8 x) = x := by
  simp only [int_to_bytes_be8, List.range_succ, List.map_append, List.map_cons, List.map_nil,
    bytes_to_int_be, List.foldl_append, List.foldl_cons, List.foldl_nil]
  simp only [Nat.shiftRight_eq_div_pow, and_255_eq_mod]
  norm_num
  omega

theorem int_to_bytes_of_bytes (l : List Nat) (h8 : l.length = 8) (hb : ∀ b ∈ l, b < 256) :
    int_to_bytes_be8 (bytes_to_int_be l) = l := by
  rcases l with _ | ⟨b0, _ | ⟨b1, _ | ⟨b2, _ | ⟨b3, _ | ⟨b4, _ | ⟨b5, _ | ⟨b6, _ | ⟨b7, t⟩⟩⟩⟩⟩⟩⟩⟩ <;>
    simp_all
  have hbt : t = [] := by
    cases t with
    | nil => rfl
    | cons x s => simp at h8
  subst hbt
  simp only [bytes_to_int_be, List.foldl_cons, List.foldl_nil]
  simp only [int_to_bytes_be8, List.range_succ, List.map_append, List.map_cons, List.map_nil]
  simp only [Nat.shiftRight_eq_div_pow, and_255_eq_mod]
  norm_num
  omega

theorem flatten_take_slices (l : List Nat) : ∀ n : Nat, 8 * n ≤ l.length →
    ((List.range n).map (fun k => (l.drop (8 * k)).take 8)).flatten = l.take (8 * n) := by
  intro n
  induction n with
  | zero => intro _; simp
  | succ m ih =>
    intro h
    have hm : 8 * m ≤ l.length := by omega
    rw [List.range_succ, List.map_append, List.flatten_append, ih hm]
    simp only [List.map_cons, List.map_nil, List.flatten_cons, List.flatten_nil,
      List.append_nil]
    have h2 : 8 * (m + 1) = 8 * m + 8 := by ring
    rw [h2, List.take_add]

theorem map_slices_flatten (tail : List Nat) : ∀ L : List (List Nat),
    (∀ l ∈ L, l.length = 8) →
    (List.range L.length).map (fun k => ((L.flatten ++ tail).drop (8 * k)).take 8) = L := by
  intro L
  induction L with
  | nil => intro _; simp
  | cons x Ls ih =>
    intro hL
    have hx : x.length = 8 := hL x (by simp)
    have hLs : ∀ l ∈ Ls, l.length = 8 := fun l h => hL l (by simp [h])
    simp only [List.length_cons, List.range_succ_eq_map, List.map_cons, List.map_map]
    have hhead : ((((x :: Ls).flatten ++ tail)).drop (8 * 0)).take 8 = x := by
      simp only [Nat.mul_zero, List.drop_zero, List.flatten_cons, List.append_assoc]
      exact List.take_left' hx
    have hstep : ∀ k : Nat,
        (((x :: Ls).flatten ++ tail).drop (8 * (k + 1))).take 8
          = ((Ls.flatten ++ tail).drop (8 * k)).take 8 := by
      intro k
      have h81 : 8 * (k + 1) = x.length + 8 * k := by omega
      simp only [List.flatten_cons, List.append_assoc, h81, List.drop_append]
    have htail : (List.range Ls.length).map
          ((fun k => (((x :: Ls).flatten ++ tail).drop (8 * k)).take 8) ∘ Nat.succ)
        = Ls := by
      calc (List.range Ls.length).map
            ((fun k => (((x :: Ls).flatten ++ tail).drop (8 * k)).take 8) ∘ Nat.succ)
          = (List.range Ls.length).map
              (fun k => ((Ls.flatten ++ tail).drop (8 * k)).take 8) := by
            apply List.map_congr_left
            intro k _
            exact hstep k
        _ = Ls := ih hLs
    rw [hhead, htail]

theorem cbc_encrypt_mem_lt (key : Nat) : ∀ (blocks : List Nat) (chain : Nat),
    ∀ c ∈ cbc_encrypt key chain blocks, c < 2 ^ 64 := by
  intro blocks
  induction blocks with
  | nil => intro chain c hc; simp [cbc_encrypt] at hc
  | cons p rest ih =>
    intro chain c hc
    simp only [cbc_encrypt, List.mem_cons] at hc
    rcases hc with h | h
    · rw [h]; exact speck_encrypt_block_lt key _
    · exact ih _ c h

set_option maxRecDepth 4000

set_option maxHeartbeats 1600000

theorem flatten_length_of_const (L : List (List Nat)) (h : ∀ l ∈ L, l.length = 8) :
    L.flatten.length = 8 * L.length := by
  induction L with
  | nil => simp
  | cons x Ls ih =>
    have hx : x.length = 8 := h x (by simp)
    have hLs : ∀ l ∈ Ls, l.length = 8 := fun l hl => h l (by simp [hl])
    simp [ih hLs, hx]
    ring

theorem map_bytes_roundtrip (L : List Nat) (h : ∀ c ∈ L, c < 2 ^ 64) :
    (L.map int_to_bytes_be8).map bytes_to_int_be = L := by
  induction L with
  | nil => rfl
  | cons c t ih =>
    have hc : c < 2 ^ 64 := h c (by simp)
    have ht : ∀ x ∈ t, x < 2 ^ 64 := fun x hx => h x (by simp [hx])
    simp only [List.map_cons, bytes_of_int_to_bytes c hc, ih ht]

theorem map_be8_of_slices (l : List Nat) (n : Nat)
    (h : ∀ k < n, ((l.drop (8 * k)).take 8).length = 8) (hb : ∀ b ∈ l, b < 256) :
    ((List.range n).map (fun k => bytes_to_int_be ((l.drop (8 * k)).take 8))).map
        int_to_bytes_be8
      = (List.range n).map (fun k => (l.drop (8 * k)).take 8) := by
  rw [List.map_map]
  apply List.map_congr_left
  intro k hk
  simp only [List.mem_range] at hk
  simp only [Function.comp]
  exact int_to_bytes_of_bytes _ (h k hk)
    (fun b hmem => hb b (List.mem_of_mem_drop (List.mem_of_mem_take hmem)))

/-- Claim C5 as amended: for a 253-byte uplink frame,
decrypt(encrypt(frame)) recovers exactly the first 248 bytes of the
frame (the 16-byte header verbatim and the 232-byte encrypted region),
not the frame itself: the last 5 frame bytes are replaced in the
ciphertext by the appended zero bytes that keep the 253-byte length,
and decrypt stops after the 29 blocks, returning 248 bytes. -/
theorem c5_cipher_roundtrip_248 (key iv : Nat) (frame : List Nat)
    (hlen : frame.length = 253) (hb : ∀ b ∈ frame, b < 256) (hiv : iv < 2 ^ 64) :
    gs_decrypt key iv (gs_encrypt key iv frame) = frame.take 248
    ∧ (gs_encrypt key iv frame).take 16 = frame.take 16
    ∧ (gs_encrypt key iv frame).length = 253
    ∧ (gs_encrypt key iv frame).drop 248 = List.replicate 5 0x00 := by
  have hbody_len : (frame.drop 16).length = 237 := by simp [hlen]
  have hbody_mem : ∀ b ∈ frame.drop 16, b < 256 := fun b h => hb b (List.mem_of_mem_drop h)
  set body := frame.drop 16 with hbody
  set blocks := (List.range 29).map
    (fun k => bytes_to_int_be ((body.drop (8 * k)).take 8)) with hblocks
  have hblocks_lt : ∀ bl ∈ blocks, bl < 2 ^ 64 := by
    intro bl hbl
    rw [hblocks] at hbl
    simp only [List.mem_map, List.mem_range] at hbl
    obtain ⟨k, _, rfl⟩ := hbl
    apply bytes_to_int_be_lt
    · intro b hmem
      exact hbody_mem b (List.mem_of_mem_drop (List.mem_of_mem_take hmem))
    · exact le_trans (List.length_take_le 8 _) (le_refl 8)
  set cts := cbc_encrypt key iv blocks with hcts
  have hcts_len : cts.length = 29 := by
    rw [hcts, cbc_encrypt_length, hblocks]
    simp
  have hcts_lt : ∀ c ∈ cts, c < 2 ^ 64 := by
    intro c hc
    exact cbc_encrypt_mem_lt key blocks iv c (hcts ▸ hc)
  have hbe8len : ∀ l ∈ cts.map int_to_bytes_be8, l.length = 8 := by
    intro l hl
    simp only [List.mem_map] at hl
    obtain ⟨c, _, rfl⟩ := hl
    exact int_to_bytes_be8_length c
  have hflatlen : ((cts.map int_to_bytes_be8).flatten).length = 232 := by
    rw [flatten_length_of_const _ hbe8len]
    simp [hcts_len]
  have htake16len : (frame.take 16).length = 16 := by simp [hlen]
  have henc : gs_encrypt key iv frame
      = frame.take 16 ++ ((cts.map int_to_bytes_be8).flatten ++ List.replicate 5 0x00) := by
    rw [gs_encrypt]
    simp only [← hbody, ← hblocks, ← hcts, List.append_assoc]
  have htake16 : (gs_encrypt key iv frame).take 16 = frame.take 16 := by
    rw [henc, List.take_left' htake16len]
  have hdrop16 : (gs_encrypt key iv frame).drop 16
      = (cts.map int_to_bytes_be8).flatten ++ List.replicate 5 0x00 := by
    rw [henc, List.drop_left' htake16len]
  have henclen : (gs_encrypt key iv frame).length = 253 := by
    rw [henc]
    simp [htake16len, hflatlen]
  have hdrop248 : (gs_encrypt key iv frame).drop 248 = List.replicate 5 0x00 := by
    rw [henc]
    have h248 : (248 : Nat) = (frame.take 16).length + 232 := by rw [htake16len]
    rw [h248, List.drop_append]
    have h232 : (232 : Nat) = ((cts.map int_to_bytes_be8).flatten).length + 0 := by
      rw [hflatlen]
    rw [h232, List.drop_append, List.drop_zero]
  have hdblocks : (List.range 29).map
      (fun k => bytes_to_int_be
        ((((gs_encrypt key iv frame).drop 16).drop (8 * k)).take 8)) = cts := by
    have hmm := map_slices_flatten (List.replicate 5 0x00) (cts.map int_to_bytes_be8) hbe8len
    have h29 : (cts.map int_to_bytes_be8).length = 29 := by simp [hcts_len]
    rw [h29] at hmm
    simp only [hdrop16]
    have h2 : (List.range 29).map
        (fun k => bytes_to_int_be
          ((((cts.map int_to_bytes_be8).flatten
            ++ List.replicate 5 0x00).drop (8 * k)).take 8))
        = ((List.range 29).map
            (fun k => (((cts.map int_to_bytes_be8).flatten
              ++ List.replicate 5 0x00).drop (8 * k)).take 8)).map bytes_to_int_be := by
      rw [List.map_map]
      rfl
    rw [h2, hmm]
    exact map_bytes_roundtrip cts hcts_lt
  have hslicelen : ∀ k ∈ List.range 29, ((body.drop (8 * k)).take 8).length = 8 := by
    intro k hk
    simp only [List.mem_range] at hk
    simp only [List.length_take, List.length_drop, hbody_len]
    omega
  have hmapbe8 : blocks.map int_to_bytes_be8
      = (List.range 29).map (fun k => (body.drop (8 * k)).take 8) := by
    rw [hblocks]
    exact map_be8_of_slices body 29
      (fun k hk => hslicelen k (List.mem_range.mpr hk)) hbody_mem
  have hroundtrip : gs_decrypt key iv (gs_encrypt key iv frame) = frame.take 248 := by
    rw [gs_decrypt]
    simp only [hdblocks, htake16]
    have hpts : cbc_decrypt key iv cts = blocks := by
      rw [hcts]
      exact cbc_roundtrip key blocks iv hiv hblocks_lt
    rw [hpts, hmapbe8, flatten_take_slices body 29 (by rw [hbody_len]; norm_num)]
    have h29 : 8 * 29 = 232 := by norm_num
    rw [h29, hbody]
    have h248 : (248 : Nat) = 16 + 232 := by norm_num
    rw [h248, List.take_add]
  exact ⟨hroundtrip, htake16, henclen, hdrop248⟩

theorem cbc_decrypt_length (key : Nat) : ∀ (blocks : List Nat) (chain : Nat),
    (cbc_decrypt key chain blocks).length = blocks.length := by
  intro blocks
  induction blocks with
  | nil => intro chain; rfl
  | cons p rest ih => intro chain; simp [cbc_decrypt, ih]

theorem gs_encrypt_length (key iv : Nat) (x : List Nat) :
    (gs_encrypt key iv x).length = (x.take 16).length + 237 := by
  rw [gs_encrypt]
  simp only [List.length_append, List.length_replicate]
  rw [flatten_length_of_const]
  · simp [cbc_encrypt_length]
  · intro l hl
    simp only [List.mem_map] at hl
    obtain ⟨c, _, rfl⟩ := hl
    exact int_to_bytes_be8_length c

theorem gs_decrypt_length (key iv : Nat) (x : List Nat) :
    (gs_decrypt key iv x).length = (x.take 16).length + 232 := by
  rw [gs_decrypt]
  simp only [List.length_append]
  rw [flatten_length_of_const]
  · simp [cbc_decrypt_length]
  · intro l hl
    simp only [List.mem_map] at hl
    obtain ⟨c, _, rfl⟩ := hl
    exact int_to_bytes_be8_length c

/-- Claim C5, counterexample: on a concrete 253-byte frame the cipher
round trip does not return the frame — decrypt produces only 248
bytes, because encrypt replaces the last 5 frame bytes with zero
padding and decrypt stops after the 29 eight-byte blocks. -/
theorem c5_counterexample :
    gs_decrypt 3 5 (gs_encrypt 3 5 frame253) ≠ frame253 := by
  intro h
  have hf : frame253.length = 253 := by simp [frame253]
  have henc : (gs_encrypt 3 5 frame253).length = 253 := by
    rw [gs_encrypt_length]
    simp [hf]
  have htk : ((gs_encrypt 3 5 frame253).take 16).length = 16 := by
    simp [henc]
  have hdec : (gs_decrypt 3 5 (gs_encrypt 3 5 frame253)).length = 248 := by
    rw [gs_decrypt_length, htk]
  rw [h, hf] at hdec
  exact absurd hdec (by norm_num)

/-- Claim C5, witness for the amended theorem at the concrete frame
0, 1, ..., 252 with key 3 and IV 5. -/
theorem c5_witness :
    gs_decrypt 3 5 (gs_encrypt 3 5 frame253) = frame253.take 248
    ∧ (gs_encrypt 3 5 frame253).take 16 = frame253.take 16
    ∧ (gs_encrypt 3 5 frame253).length = 253
    ∧ (gs_encrypt 3 5 frame253).drop 248 = List.replicate 5 0x00 :=
  c5_cipher_roundtrip_248 3 5 frame253 (by simp [frame253])
    (by
      intro b hb
      simp only [frame253, List.mem_map, List.mem_range] at hb
      obtain ⟨i, _, rfl⟩ := hb
      omega)
    (by norm_num)

/-!
Claim C6.
-/

theorem window_flush_dump (cfg : ArqConfig) (st : ArqState) (dc : Bool)
    (hd : st.dump_mode = true) : window_flush cfg st dc = (st, []) := by
  unfold window_flush
  rw [hd]
  simp

theorem arq_step_dump (cfg : ArqConfig) (st : ArqState) (p : ParsedTM)
    (hd : st.dump_mode = true) :
    (arq_step cfg st p).1.to_nak = st.to_nak
    ∧ (arq_step cfg st p).1.dump_mode = true
    ∧ ∀ e ∈ (arq_step cfg st p).2, emitKind e ≠ 1 ∧ emitKind e ≠ 2 := by
  by_cases h1 : p.validation_mask ≠ 0 ∧ p.command ≠ 0xFF
  · simp [arq_step, h1, hd]
  · by_cases h2 : p.command = 0xFF
    · simp [arq_step, h1, h2, hd]
    · push_neg at h1
      have hmask : p.validation_mask = 0 := by
        by_contra hm
        exact h2 (h1 hm)
      by_cases h3 : p.command = 0x05
      · simp [arq_step, h1, h2, h3, hmask, hd, CMD_ACK]
      · by_cases h4 : p.command = 0x06
        · simp [arq_step, h1, h2, h3, h4, hmask, hd, CMD_ACK, CMD_NAK, emitKind]
        · by_cases h5 : p.command = 0x01
          · simp [arq_step, h1, h2, h3, h4, h5, hmask, hd, window_flush_dump,
              CMD_ACK, CMD_NAK, CMD_XMIT_COUNT]
          · by_cases h6 : p.command = 0x02
            · simp [arq_step, h1, h2, h3, h4, h5, h6, hmask, hd, window_flush_dump,
                CMD_ACK, CMD_NAK, CMD_XMIT_COUNT, CMD_XMIT_HEALTH]
            · by_cases h7 : p.command = 0x03
              · simp [arq_step, h1, h2, h3, h4, h5, h6, h7, hmask, hd, window_flush_dump,
                  CMD_ACK, CMD_NAK, CMD_XMIT_COUNT, CMD_XMIT_HEALTH, CMD_XMIT_SCIENCE]
              · by_cases h8 : p.command = 0x08
                · simp [arq_step, h1, h2, h3, h4, h5, h6, h7, h8, hmask, hd,
                    window_flush_dump, CMD_ACK, CMD_NAK, CMD_XMIT_COUNT,
                    CMD_XMIT_HEALTH, CMD_XMIT_SCIENCE, CMD_READ_MEM]
                · by_cases h9 : p.command = 0x0C
                  · simp [arq_step, h1, h2, h3, h4, h5, h6, h7, h8, h9, hmask, hd,
                      window_flush_dump, CMD_ACK, CMD_NAK, CMD_XMIT_COUNT,
                      CMD_XMIT_HEALTH, CMD_XMIT_SCIENCE, CMD_READ_MEM, CMD_GET_COMMS]
                  · by_cases h10 : p.command = 0x0E
                    · simp [arq_step, h1, h2, h3, h4, h5, h6, h7, h8, h9, h10, hmask, hd,
                        CMD_ACK, CMD_NAK, CMD_XMIT_COUNT, CMD_XMIT_HEALTH,
                        CMD_XMIT_SCIENCE, CMD_READ_MEM, CMD_GET_COMMS, CMD_MAC_TEST]
                    · simp [arq_step, h1, h2, h3, h4, h5, h6, h7, h8, h9, h10, hmask, hd,
                        CMD_ACK, CMD_NAK, CMD_XMIT_COUNT, CMD_XMIT_HEALTH,
                        CMD_XMIT_SCIENCE, CMD_READ_MEM, CMD_GET_COMMS, CMD_MAC_TEST]

/-- Claim C6: when dump_mode is on, the controller never appends an
inbound packet to the NAK accumulation list and never transmits a NAK
or CEASE_XMIT, whatever the sequence of inbound packets (including
consecutive MAC failures); a dump is therefore never aborted through
the retry path. -/
theorem c6_dump_mode_never_naks (cfg : ArqConfig) (st : ArqState)
    (inputs : List ParsedTM) (hd : st.dump_mode = true) :
    (arq_run cfg st inputs).1.to_nak = st.to_nak
    ∧ ∀ e ∈ (arq_run cfg st inputs).2, emitKind e ≠ 1 ∧ emitKind e ≠ 2 := by
  induction inputs generalizing st with
  | nil => simp [arq_run]
  | cons p rest ih =>
    obtain ⟨h1, h2, h3⟩ := arq_step_dump cfg st p hd
    obtain ⟨h4, h5⟩ := ih (arq_step cfg st p).1 h2
    constructor
    · show (arq_run cfg (arq_step cfg st p).1 rest).1.to_nak = st.to_nak
      rw [h4, h1]
    · intro e he
      show emitKind e ≠ 1 ∧ emitKind e ≠ 2
      have he2 : e ∈ (arq_step cfg st p).2
          ++ (arq_run cfg (arq_step cfg st p).1 rest).2 := he
      rcases List.mem_append.mp he2 with h | h
      · exact h3 e h
      · exact h5 e h

/-- Claim C6, witness: a dump-mode session fed a MAC failure, a valid
XMIT_COUNT and another MAC failure accumulates no NAK entries. -/
theorem c6_witness :
    (arq_run cfg_demo st_demo_dump [tm_mac_fail, tm_xmit_count, tm_mac_fail]).1.to_nak
      = st_demo_dump.to_nak :=
  (c6_dump_mode_never_naks cfg_demo st_demo_dump
    [tm_mac_fail, tm_xmit_count, tm_mac_fail] rfl).1

/-!
Claim C3.
-/

/-- Claim C3 as amended: the synthesized bad packet produced on an
ack_timeout parses, on any 16-byte AX.25 header with control 0x03 and
PID 0xF0, to an SPP packet whose command byte is the 0xFF sentinel,
and process_received ignores it entirely — the state is unchanged and
nothing is transmitted — rather than treating it like a MAC failure;
the loop then continues with the next queue read, so the controller is
not blocked. -/
theorem c3_timeout_badpacket_ignored
    (macSign : List Nat → List Nat → List Nat) (key oa_key : List Nat)
    (cfg : ArqConfig) (st : ArqState) (hdr : List Nat) (their_packet_type : Nat)
    (hl : hdr.length = 16) (h14 : hdr.getD 14 0 = 0x03) (h15 : hdr.getD 15 0 = 0xF0) :
    is_spp_packet oa_key (init_ax25_badpacket hdr their_packet_type) = true
    ∧ (parse_tm macSign key (init_ax25_badpacket hdr their_packet_type)).command = 0xFF
    ∧ arq_step cfg st (parse_tm macSign key (init_ax25_badpacket hdr their_packet_type))
        = (st, []) := by
  have hbp : init_ax25_badpacket hdr their_packet_type
      = hdr ++ (their_packet_type
        :: [0x00, 0x1C, 0x00, 0x00, 0x00, 0x00, 0x00, 0x00, 0x00, 0x00, 0x00, 0x00,
            0x00, 0x01, 0xFF, 0x00, 0x00, 0x00, 0x00, 0x00, 0x00, 0x00, 0x00,
            0x00, 0x00, 0x00, 0x00, 0x00, 0x00, 0x00, 0x00]) := rfl
  set tail := their_packet_type
    :: [0x00, 0x1C, 0x00, 0x00, 0x00, 0x00, 0x00, 0x00, 0x00, 0x00, 0x00, 0x00,
        0x00, 0x01, 0xFF, 0x00, 0x00, 0x00, 0x00, 0x00, 0x00, 0x00, 0x00,
        0x00, 0x00, 0x00, 0x00, 0x00, 0x00, 0x00, 0x00] with htail
  have htail_len : tail.length = 32 := by rw [htail]; rfl
  have hlen48 : (hdr ++ tail).length = 48 := by
    simp [hl, htail_len]
  have h32 : (hdr ++ tail).getD 32 0 = 0 := by
    rw [List.getD_append_right hdr tail 0 32 (by omega), hl]
    rw [htail]
    rfl
  have hspp : is_spp_packet oa_key (init_ax25_badpacket hdr their_packet_type) = true := by
    rw [hbp]
    unfold is_spp_packet
    rw [h32]
    have hg14 : (hdr ++ tail).getD 14 0 = 0x03 := by
      rw [List.getD_append hdr tail 0 14 (by omega)]
      exact h14
    have hg15 : (hdr ++ tail).getD 15 0 = 0xF0 := by
      rw [List.getD_append hdr tail 0 15 (by omega)]
      exact h15
    rw [hg14, hg15, hlen48]
    simp
  have hparse : parse_tm macSign key (init_ax25_badpacket hdr their_packet_type)
      = { validation_mask := validate_packet macSign tail key, command := 0xFF,
          sequence_number := 1, spp_data := [0xFF] } := by
    rw [hbp]
    simp only [parse_tm, hlen48]
    norm_num
    rw [List.drop_left' hl]
    refine ⟨rfl, ?_, ?_, ?_⟩
    · rfl
    · have h29 : (29 : Nat) = hdr.length + 13 := by omega
      rw [h29, List.drop_append]
      rfl
    · rfl
  refine ⟨hspp, by rw [hparse], ?_⟩
  rw [hparse]
  simp [arq_step]

/-- Claim C3, counterexample: at a concrete configuration and idle
state, the synthesized timeout bad packet leaves the controller state
untouched and transmits nothing, while an actual single
MAC-verification failure mutates the state (setting retry_count to
max_retries + 1 = 3): the two handlings are not identical, contrary to
the claim. -/
theorem c3_counterexample :
    arq_step cfg_demo st_demo
        (parse_tm mac_sign (List.range 16) (init_ax25_badpacket hdr_demo 0x08))
      = (st_demo, [])
    ∧ (arq_step cfg_demo st_demo tm_mac_fail).1 ≠ st_demo
    ∧ (arq_step cfg_demo st_demo tm_mac_fail).1.retry_count = 3 := by
  refine ⟨by decide, by decide, by decide⟩

/-- Claim C3, witness for the amended theorem at a concrete header and
keys. -/
theorem c3_witness :
    is_spp_packet [9, 9, 9] (init_ax25_badpacket hdr_demo 0x08) = true
    ∧ (parse_tm mac_sign (List.range 16) (init_ax25_badpacket hdr_demo 0x08)).command
        = 0xFF :=
  ⟨(c3_timeout_badpacket_ignored mac_sign (List.range 16) [9, 9, 9] cfg_demo st_demo
      hdr_demo 0x08 (by decide) (by decide) (by decide)).1,
   (c3_timeout_badpacket_ignored mac_sign (List.range 16) [9, 9, 9] cfg_demo st_demo
      hdr_demo 0x08 (by decide) (by decide) (by decide)).2.1⟩

/-!
Claim C2.
-/

theorem arq_step_fail (cfg : ArqConfig) (st : ArqState) (hdump : st.dump_mode = false) :
    arq_step cfg st tm_mac_fail
      = ({ st with
            retry_count := if st.retry_count < 0 then cfg.max_retries + 1 else st.retry_count,
            expected_sc_seq := sn_increment st.expected_sc_seq,
            to_nak := st.to_nak ++ [st.expected_sc_seq] }, []) := by
  simp [arq_step, tm_mac_fail, hdump]

theorem arq_step_count (cfg : ArqConfig) (st : ArqState) :
    arq_step cfg st tm_xmit_count
      = window_flush cfg
          { st with
              tc_waiting := [],
              expected_sc_seq := sn_increment 9,
              health_avail := 4,
              science_avail := 2,
              to_ack := st.to_ack ++ [9] }
          true := by
  have h4 : from_bigendian [0x00, 0x04] 2 = 4 := by decide
  have h2 : from_bigendian [0x00, 0x02] 2 = 2 := by decide
  simp [arq_step, tm_xmit_count, CMD_ACK, CMD_NAK, CMD_XMIT_COUNT, h4, h2]

theorem arq_run_pair (cfg : ArqConfig) (st : ArqState) (rest : List ParsedTM)
    (hdump : st.dump_mode = false) (hnak : st.to_nak = []) :
    arq_run cfg st (tm_mac_fail :: tm_xmit_count :: rest)
      = (if (if st.retry_count < 0 then cfg.max_retries + 1 else st.retry_count) - 1 = 0 then
          ((arq_run cfg { st with
              tc_waiting := [], expected_sc_seq := sn_increment 9,
              health_avail := 4, science_avail := 2,
              to_ack := st.to_ack ++ [9], to_nak := [st.expected_sc_seq],
              retry_count := -1, ground_seq := sn_increment st.ground_seq } rest).1,
            Emit.ceaseXmit :: (arq_run cfg { st with
              tc_waiting := [], expected_sc_seq := sn_increment 9,
              health_avail := 4, science_avail := 2,
              to_ack := st.to_ack ++ [9], to_nak := [st.expected_sc_seq],
              retry_count := -1, ground_seq := sn_increment st.ground_seq } rest).2)
        else
          ((arq_run cfg { st with
              tc_waiting := [], expected_sc_seq := sn_increment 9,
              health_avail := 4, science_avail := 2,
              to_ack := [], to_nak := [],
              retry_count :=
                (if st.retry_count < 0 then cfg.max_retries + 1 else st.retry_count) - 1,
              ground_seq := sn_increment st.ground_seq } rest).1,
            Emit.nak [st.expected_sc_seq] :: (arq_run cfg { st with
              tc_waiting := [], expected_sc_seq := sn_increment 9,
              health_avail := 4, science_avail := 2,
              to_ack := [], to_nak := [],
              retry_count :=
                (if st.retry_count < 0 then cfg.max_retries + 1 else st.retry_count) - 1,
              ground_seq := sn_increment st.ground_seq } rest).2)) := by
  simp only [arq_run]
  rw [arq_step_fail cfg st hdump]
  simp only []
  rw [arq_step_count]
  simp only [window_flush, hnak, hdump]
  by_cases hc : (if st.retry_count < 0 then cfg.max_retries + 1 else st.retry_count) - 1 = 0
  · simp [hc, hnak, hdump]
  · simp [hc, hnak, hdump]

theorem arq_fail_count_pattern_succ (j : Nat) :
    arq_fail_count_pattern (j + 1)
      = tm_mac_fail :: tm_xmit_count :: arq_fail_count_pattern j := by
  simp [arq_fail_count_pattern, List.replicate_succ]

theorem arq_fail_count_run (cfg : ArqConfig) : ∀ (k : Nat) (st : ArqState),
    st.dump_mode = false → st.to_nak = [] → st.retry_count = (k : Int) + 1 →
    ((arq_run cfg st (arq_fail_count_pattern (k + 1))).2.map emitKind
      = List.replicate k 1 ++ [2])
    ∧ (arq_run cfg st (arq_fail_count_pattern (k + 1))).1.retry_count = -1 := by
  intro k
  induction k with
  | zero =>
    intro st hdump hnak hrc
    rw [arq_fail_count_pattern_succ, arq_fail_count_pattern]
    simp only [List.replicate, List.flatten_nil]
    rw [arq_run_pair cfg st [] hdump hnak]
    have hc : (if st.retry_count < 0 then cfg.max_retries + 1 else st.retry_count) - 1 = 0 := by
      rw [hrc]
      norm_num
    rw [if_pos hc]
    simp [arq_run, emitKind]
  | succ m ih =>
    intro st hdump hnak hrc
    rw [arq_fail_count_pattern_succ]
    rw [arq_run_pair cfg st _ hdump hnak]
    have hrcpos : ¬ (st.retry_count < 0) := by
      rw [hrc]
      omega
    have hne : (if st.retry_count < 0 then cfg.max_retries + 1 else st.retry_count) - 1 ≠ 0 := by
      rw [if_neg hrcpos, hrc]
      omega
    rw [if_neg hne]
    obtain ⟨ih1, ih2⟩ := ih
      { st with
          tc_waiting := [], expected_sc_seq := sn_increment 9,
          health_avail := 4, science_avail := 2,
          to_ack := [], to_nak := [],
          retry_count :=
            (if st.retry_count < 0 then cfg.max_retries + 1 else st.retry_count) - 1,
          ground_seq := sn_increment st.ground_seq }
      (by simp [hdump]) (by simp)
      (by
        show (if st.retry_count < 0 then cfg.max_retries + 1 else st.retry_count) - 1
          = (m : Int) + 1
        rw [if_neg hrcpos, hrc]
        push_cast
        ring)
    refine ⟨?_, ih2⟩
    simp only [List.map_cons, ih1, emitKind]
    simp [List.replicate_succ]

/-- Claim C2 as amended: consecutive MAC failures alone transmit
nothing — NAKs and CEASE_XMIT go out only from the window flush, which
runs only after a valid counted reply.  When each MAC failure is
followed by a valid XMIT_COUNT reply, a controller starting idle
(retry_count -1, empty NAK list, dump mode off) emits exactly
max_retries NAK packets and then one CEASE_XMIT over max_retries + 1
such fail-then-reply rounds, ending with retry_count = -1. -/
theorem c2_max_retries_naks_then_cease (cfg : ArqConfig) (st : ArqState) (mr : Nat)
    (hmr : cfg.max_retries = (mr : Int)) (hdump : st.dump_mode = false)
    (hnak : st.to_nak = []) (hrc : st.retry_count = -1) :
    ((arq_run cfg st (arq_fail_count_pattern (mr + 1))).2.map emitKind
      = List.replicate mr 1 ++ [2])
    ∧ (arq_run cfg st (arq_fail_count_pattern (mr + 1))).1.retry_count = -1 := by
  cases mr with
  | zero =>
    rw [arq_fail_count_pattern_succ, arq_fail_count_pattern]
    simp only [List.replicate, List.flatten_nil]
    rw [arq_run_pair cfg st [] hdump hnak]
    have hc : (if st.retry_count < 0 then cfg.max_retries + 1 else st.retry_count) - 1 = 0 := by
      rw [hrc, if_pos (by norm_num), hmr]
      norm_num
    rw [if_pos hc]
    simp [arq_run, emitKind]
  | succ m =>
    rw [arq_fail_count_pattern_succ]
    rw [arq_run_pair cfg st _ hdump hnak]
    have hneg : st.retry_count < 0 := by
      rw [hrc]
      norm_num
    have hne : (if st.retry_count < 0 then cfg.max_retries + 1 else st.retry_count) - 1 ≠ 0 := by
      rw [if_pos hneg, hmr]
      push_cast
      omega
    rw [if_neg hne]
    obtain ⟨ih1, ih2⟩ := arq_fail_count_run cfg m
      { st with
          tc_waiting := [], expected_sc_seq := sn_increment 9,
          health_avail := 4, science_avail := 2,
          to_ack := [], to_nak := [],
          retry_count :=
            (if st.retry_count < 0 then cfg.max_retries + 1 else st.retry_count) - 1,
          ground_seq := sn_increment st.ground_seq }
      (by simp [hdump]) (by simp)
      (by
        show (if st.retry_count < 0 then cfg.max_retries + 1 else st.retry_count) - 1
          = (m : Int) + 1
        rw [if_pos hneg, hmr]
        push_cast
        ring)
    refine ⟨?_, ih2⟩
    simp only [List.map_cons, ih1, emitKind]
    simp [List.replicate_succ]

/-- Claim C2, counterexample: with max_retries = 2, two consecutive
MAC-failing replies while a downlink is pending cause the controller
to transmit nothing at all — zero NAKs and no CEASE_XMIT — and leave
retry_count at 3, not -1: the NAK/CEASE_XMIT of the claim never happen
without an interleaved valid reply reaching the window flush. -/
theorem c2_counterexample :
    (arq_run cfg_demo st_demo [tm_mac_fail, tm_mac_fail]).2 = []
    ∧ (arq_run cfg_demo st_demo [tm_mac_fail, tm_mac_fail]).1.retry_count = 3 := by
  refine ⟨by decide, by decide⟩

/-- Claim C2, witness for the amended theorem: with max_retries = 2,
three fail-then-XMIT_COUNT rounds emit NAK, NAK, CEASE_XMIT and end
idle. -/
theorem c2_witness :
    ((arq_run cfg_demo st_demo (arq_fail_count_pattern 3)).2.map emitKind
      = List.replicate 2 1 ++ [2])
    ∧ (arq_run cfg_demo st_demo (arq_fail_count_pattern 3)).1.retry_count = -1 :=
  c2_max_retries_naks_then_cease cfg_demo st_demo 2 (by decide) (by decide) (by decide)
    (by decide)
